import Mathlib

/-!
Verification development for the StockSmart monitor (MCSA.py).

The Python source is shallowly embedded: pure string manipulation becomes
Lean functions on `String` / `List Char`; the mutable monitor state (the
notified-URL set, the stock-status dict, the last-report date) becomes
explicit state passing; page fetching is an oracle `String → String`
supplied per poll cycle; calls to the notifier are recorded as values
rather than performed.  Python dicts are modelled as partial maps
`String → Option Bool` (lookup semantics; iteration order is only used
for report formatting, which takes an explicit entry list).
-/

namespace StockSmart

/-- The single-quote character (ASCII 39), used in the in-stock marker. -/
def sq : Char := Char.ofNat 39

/-- Test `matchesAt pat s` is true when `pat` is an initial segment of `s`.
Helper for the Python substring test `pat in s`. -/
def matchesAt : List Char → List Char → Bool
  | [], _ => true
  | _ :: _, [] => false
  | p :: ps, c :: cs => p == c && matchesAt ps cs

/-- Predicate `occursIn pat s` models the Python membership test `pat in s` on
strings: true when `pat` occurs contiguously somewhere in `s`. -/
def occursIn (pat : List Char) : List Char → Bool
  | [] => matchesAt pat []
  | c :: cs => matchesAt pat (c :: cs) || occursIn pat cs

theorem matchesAt_iff (pat s : List Char) :
    matchesAt pat s = true ↔ ∃ r, s = pat ++ r := by
  induction pat generalizing s with
  | nil => simp [matchesAt]
  | cons p ps ih =>
    cases s with
    | nil => simp [matchesAt]
    | cons c cs =>
      simp only [matchesAt, Bool.and_eq_true, beq_iff_eq, ih, List.cons_append,
        List.cons.injEq]
      constructor
      · rintro ⟨rfl, r, rfl⟩
        exact ⟨r, rfl, rfl⟩
      · rintro ⟨r, rfl, rfl⟩
        exact ⟨rfl, r, rfl⟩

theorem occursIn_iff (pat s : List Char) :
    occursIn pat s = true ↔ ∃ l r, s = l ++ pat ++ r := by
  induction s with
  | nil =>
    simp only [occursIn, matchesAt_iff]
    constructor
    · rintro ⟨r, h⟩
      exact ⟨[], r, h⟩
    · rintro ⟨l, r, h⟩
      rcases List.append_eq_nil.mp (List.append_eq_nil.mp h.symm).1 with ⟨h1, h2⟩
      exact ⟨[], by simp [(List.append_eq_nil.mp h.symm).2, h1, h2]⟩
  | cons c cs ih =>
    simp only [occursIn, Bool.or_eq_true, matchesAt_iff, ih]
    constructor
    · rintro (⟨r, h⟩ | ⟨l, r, h⟩)
      · exact ⟨[], r, by simp [h]⟩
      · exact ⟨c :: l, r, by simp [h]⟩
    · rintro ⟨l, r, h⟩
      cases l with
      | nil => exact Or.inl ⟨r, by simpa using h⟩
      | cons x xs =>
        simp only [List.cons_append, List.cons.injEq] at h
        exact Or.inr ⟨xs, r, h.2⟩

/-- One pass of Python `str.title()` over the characters, carrying whether
the previous character was cased.  Models the CPython rule for ASCII
letters: a letter following a non-cased character is uppercased, a letter
following a cased character is lowercased. -/
def pyTitleGo : Bool → List Char → List Char
  | _, [] => []
  | prevCased, c :: cs =>
    if c.isAlpha then
      (if prevCased then c.toLower else c.toUpper) :: pyTitleGo true cs
    else
      c :: pyTitleGo false cs

/-- Python `str.title()` (modelled for ASCII input, which is all the URL
slugs contain). -/
def pyTitle (s : String) : String := String.mk (pyTitleGo false s.data)

/-- Python truthiness test `not x` for an optional string: true for an
absent value and for the empty string. -/
def pyFalsy : Option String → Bool
  | none => true
  | some s => s = ""

/-- The ASCII whitespace characters Python `str.strip()` removes
(space, tab, newline, carriage return, vertical tab, form feed). -/
def isPySpace (c : Char) : Bool :=
  c.toNat = 32 || c.toNat = 9 || c.toNat = 10 || c.toNat = 13 ||
    c.toNat = 11 || c.toNat = 12

/-- Drop leading whitespace characters. -/
def dropSpace : List Char → List Char
  | [] => []
  | c :: cs => if isPySpace c then dropSpace cs else c :: cs

/-- Python `str.strip()` (modelled for ASCII whitespace): remove leading
and trailing whitespace. -/
def pyStrip (s : String) : String :=
  String.mk (dropSpace ((dropSpace s.data.reverse).reverse))

/-- Split a character list at every occurrence of `sep`, keeping empty
pieces, as Python `str.split(sep)` does for a one-character separator.
The result is always non-empty. -/
def splitChar (sep : Char) : List Char → List (List Char)
  | [] => [[]]
  | c :: cs =>
    match splitChar sep cs with
    | [] => if c = sep then [[], []] else [[c]]
    | g :: gs => if c = sep then [] :: g :: gs else (c :: g) :: gs

/-- Python `str.split(sep)` for a one-character separator. -/
def pySplit (s : String) (sep : Char) : List String :=
  (splitChar sep s.data).map String.mk

/-- Python `str.replace(a, b)` for one-character arguments: replace
every occurrence. -/
def replaceChar (a b : Char) (cs : List Char) : List Char :=
  cs.map fun c => if c = a then b else c

/-- Accumulating decimal-digit parser used by `pyInt`. -/
def digitsNatGo (acc : Nat) : List Char → Option Nat
  | [] => some acc
  | c :: cs => if c.isDigit then digitsNatGo (10 * acc + (c.toNat - 48)) cs else none

/-- Parse a non-empty run of decimal digits. -/
def digitsNat : List Char → Option Nat
  | [] => none
  | c :: cs => digitsNatGo 0 (c :: cs)

/-- Python built-in `int()` on a string (modelled for ASCII decimal
literals: surrounding whitespace stripped, optional sign, then at least
one digit).  `none` models the `ValueError` the built-in raises on any
other input. -/
def pyInt (s : String) : Option Int :=
  match (pyStrip s).data with
  | [] => none
  | c :: cs =>
    if c = Char.ofNat 43 then (digitsNat cs).map Int.ofNat
    else if c = Char.ofNat 45 then (digitsNat cs).map (fun n => -(Int.ofNat n))
    else (digitsNat (c :: cs)).map Int.ofNat

/-! ## Config resolver (MCSA.py lines 16-42, resolved in main, lines 134-139) -/

/-- How the process can die during startup: a deliberate
`print` + `sys.exit` (code 1) in `get_product_urls`, or an uncaught
exception (the `ValueError` from `int()` on a malformed setting, or the
`ZoneInfoNotFoundError` from `ZoneInfo` on an unknown timezone name). -/
inductive Fatal where
  | exitError (code : Nat) (msg : String)
  | uncaught (msg : String)
deriving DecidableEq

/-- The environment variables the script reads (absent = unset). -/
structure Env where
  product_urls : Option String
  store_id : Option String
  check_interval : Option String
  in_stock_interval : Option String
  daily_report_hour : Option String
  timezone : Option String
deriving DecidableEq

/-- MCSA.py lines 16-22: read `PRODUCT_URLS`, exit with an error when it
is unset or empty, otherwise split on commas, strip each piece and drop
the falsy (empty) pieces, exactly as the comprehension
`[url.strip() for url in urls.split(",") if url.strip()]`. -/
def get_product_urls (env : Option String) : Except Fatal (List String) :=
  let urls := env.getD ""
  if urls = "" then
    .error (.exitError 1 "ERROR: No PRODUCT_URLS configured in environment")
  else
    .ok ((pySplit urls ',').filterMap fun url =>
      let t := pyStrip url
      if t = "" then none else some t)

/-- MCSA.py lines 24-26. -/
def get_store_id (env : Option String) : String := env.getD "051"

/-- MCSA.py lines 28-30: `int(os.getenv("CHECK_INTERVAL", "300"))`; a
malformed value raises `ValueError`, modelled as `Fatal.uncaught`. -/
def get_check_interval (env : Option String) : Except Fatal Int :=
  match pyInt (env.getD "300") with
  | some n => .ok n
  | none => .error (.uncaught ("ValueError: invalid literal for int: " ++ env.getD "300"))

/-- MCSA.py lines 32-34. -/
def get_in_stock_interval (env : Option String) : Except Fatal Int :=
  match pyInt (env.getD "3600") with
  | some n => .ok n
  | none => .error (.uncaught ("ValueError: invalid literal for int: " ++ env.getD "3600"))

/-- MCSA.py lines 36-38. -/
def get_daily_report_hour (env : Option String) : Except Fatal Int :=
  match pyInt (env.getD "9") with
  | some n => .ok n
  | none => .error (.uncaught ("ValueError: invalid literal for int: " ++ env.getD "9"))

/-- MCSA.py lines 40-42. -/
def get_timezone (env : Option String) : String := env.getD "America/New_York"

/-- The resolved configuration held by `main`. -/
structure Config where
  product_urls : List String
  store_id : String
  check_interval : Int
  in_stock_interval : Int
  daily_report_hour : Int
  timezone : String
deriving DecidableEq

/-- Lookup `ZoneInfo(name)` at MCSA.py line 139: `tzdb` is the oracle
telling which IANA zone names the system time-zone database resolves;
an unknown name raises an uncaught `ZoneInfoNotFoundError`, modelled as
`Fatal.uncaught`. -/
def zoneInfo (tzdb : String → Bool) (name : String) : Except Fatal String :=
  if tzdb name then .ok name
  else .error (.uncaught ("ZoneInfoNotFoundError: No time zone found with key " ++ name))

/-- The startup sequence of `main` (MCSA.py lines 134-139): the getters
run in program order, line 139 resolves the timezone name through
`ZoneInfo`, and the first failure terminates the process.  All of this
happens before any browser session is created, hence before any page
fetch. -/
def resolveConfig (tzdb : String → Bool) (e : Env) : Except Fatal Config := do
  let urls ← get_product_urls e.product_urls
  let ci ← get_check_interval e.check_interval
  let isi ← get_in_stock_interval e.in_stock_interval
  let h ← get_daily_report_hour e.daily_report_hour
  let tz ← zoneInfo tzdb (get_timezone e.timezone)
  pure { product_urls := urls, store_id := get_store_id e.store_id,
         check_interval := ci, in_stock_interval := isi,
         daily_report_hour := h, timezone := tz }

/-! ## Notifier (MCSA.py lines 44-65) -/

/-- Outcome of the HTTP round trip `requests.post`: a response with a
status code, or a transport-level exception. -/
inductive NetResult where
  | ok (status : Nat)
  | exn (msg : String)
deriving DecidableEq

/-- The POST request `send_gotify` issues (url suffixed with `/message`,
token as query parameter, JSON body with fixed priority 8). -/
structure GotifyRequest where
  url : String
  token : String
  title : String
  message : String
  priority : Nat
deriving DecidableEq

/-- Observable outcome of a `send_gotify` call: the network calls it
attempted, the exception escaping to the caller (if any), and the log
lines printed. -/
structure GotifyOutcome where
  calls : List GotifyRequest
  raised : Option String
  log : List String
deriving DecidableEq

/-- Body of the `try` block of `send_gotify` (MCSA.py lines 45-63): skip
when the endpoint or token is falsy (unset or empty), otherwise post and
call `raise_for_status`, which raises exactly for status codes in
400-599.  `raised = some e` models an exception escaping the block. -/
def send_gotify_try (gotify_url gotify_token : Option String)
    (title message : String) (net : NetResult) : GotifyOutcome :=
  if pyFalsy gotify_url || pyFalsy gotify_token then
    { calls := [], raised := none, log := ["Gotify not configured, skipping notification"] }
  else
    let req : GotifyRequest :=
      { url := gotify_url.getD "" ++ "/message", token := gotify_token.getD "",
        title := title, message := message, priority := 8 }
    match net with
    | .exn e => { calls := [req], raised := some e, log := [] }
    | .ok status =>
      if 400 ≤ status ∧ status < 600 then
        { calls := [req], raised := some ("HTTPError: " ++ toString status), log := [] }
      else
        { calls := [req], raised := none, log := ["Gotify notification sent!"] }

/-- Function `send_gotify` (MCSA.py lines 44-65): the `try` body wrapped in
`except Exception`, which logs the failure and swallows it. -/
def send_gotify (gotify_url gotify_token : Option String)
    (title message : String) (net : NetResult) : GotifyOutcome :=
  let b := send_gotify_try gotify_url gotify_token title message net
  match b.raised with
  | none => b
  | some e =>
    { calls := b.calls, raised := none,
      log := b.log ++ ["Failed to send Gotify notification: " ++ e] }

/-! ## Stock detector and per-URL check (MCSA.py lines 89-112) -/

/-- The literal in-stock fragment searched for at MCSA.py line 100: the
16-character text consisting of the word inStock wrapped in single
quotes, a colon, and the word True wrapped in single quotes, with no
spaces (`sq` is the single-quote character). -/
def stockMarker : String :=
  String.mk [sq, 'i', 'n', 'S', 't', 'o', 'c', 'k', sq, ':', sq, 'T', 'r', 'u', 'e', sq]

/-- The stock detector: the Python membership test of `stockMarker` in
the rendered page source (MCSA.py line 100). -/
def detect (page_source : String) : Bool :=
  occursIn stockMarker.data page_source.data

/-- Display-name derivation at MCSA.py line 97 (in `check_stock`, used
in alert messages): last `/`-separated segment, hyphens replaced by
spaces, title-cased. -/
def product_name_alert (url : String) : String :=
  pyTitle (String.mk (replaceChar '-' ' ' ((pySplit url '/').getLastD "").data))

/-- Display-name derivation at MCSA.py line 127 (in `send_daily_report`,
used in report lines); the source duplicates the expression verbatim. -/
def product_name_report (url : String) : String :=
  pyTitle (String.mk (replaceChar '-' ' ' ((pySplit url '/').getLastD "").data))

/-- Result of one `check_stock` call: the boolean it returns, the updated
notified set, and the notification sends it attempted (title, message). -/
structure CheckResult where
  is_in_stock : Bool
  notified_urls : Finset String
  sent : List (String × String)
deriving DecidableEq

/-- Function `check_stock` (MCSA.py lines 89-112) on an already-fetched page: if
the marker is present, notify and add the URL to the notified set unless
it is already there; otherwise discard the URL from the notified set.
The `send_gotify` call is recorded in `sent` (its outcome is unused by
the caller). -/
def check_stock (page_source product_url : String)
    (notified_urls : Finset String) : CheckResult :=
  let product_name := product_name_alert product_url
  if detect page_source then
    if product_url ∉ notified_urls then
      { is_in_stock := true,
        notified_urls := insert product_url notified_urls,
        sent := [("Microcenter Stock Alert!",
                  product_name ++ " is now IN STOCK!\n\n" ++ product_url)] }
    else
      { is_in_stock := true, notified_urls := notified_urls, sent := [] }
  else
    { is_in_stock := false,
      notified_urls := notified_urls.erase product_url, sent := [] }

/-- The per-URL report line built at MCSA.py lines 126-129. -/
def report_line (url : String) (is_in_stock : Bool) : String :=
  "- " ++ product_name_report url ++ ": " ++
    (if is_in_stock then "IN STOCK" else "Out of Stock")

/-- The per-URL lines of the daily report, over the entry list of the
status dict (MCSA.py lines 126-129). -/
def daily_report_lines (stock_status : List (String × Bool)) : List String :=
  stock_status.map fun p => report_line p.1 p.2

/-! ## Monitor loop (MCSA.py lines 159-191) -/

/-- The mutable state of `main` that survives across poll cycles: the
notified set (line 142) and the stock-status dict (line 148), the latter
modelled as a partial map. -/
structure LoopState where
  notified : Finset String
  stock_status : String → Option Bool

/-- Initial state of `main`: empty set, empty dict (MCSA.py lines 142, 148). -/
def initState : LoopState :=
  { notified := ∅, stock_status := fun _ => none }

/-- Accumulator of the per-cycle `for` loop: the evolving state, the
`any_in_stock` flag, and the notification sends attempted so far. -/
structure CycleOut where
  state : LoopState
  any_in_stock : Bool
  sent : List (String × String)

/-- One iteration of the `for product_url in product_urls` body
(MCSA.py lines 172-176): check stock, record the status, accumulate the
flag. -/
def cycleStep (fetch : String → String) (url : String) (acc : CycleOut) : CycleOut :=
  let r := check_stock (fetch url) url acc.state.notified
  { state :=
      { notified := r.notified_urls,
        stock_status := fun v => if v = url then some r.is_in_stock
                                 else acc.state.stock_status v },
    any_in_stock := acc.any_in_stock || r.is_in_stock,
    sent := acc.sent ++ r.sent }

/-- The `for` loop over the configured URLs, in list order. -/
def runURLs (fetch : String → String) : List String → CycleOut → CycleOut
  | [], acc => acc
  | url :: rest, acc => runURLs fetch rest (cycleStep fetch url acc)

/-- One full poll cycle (MCSA.py lines 170-178): fresh `any_in_stock`
flag, then the per-URL loop.  `fetch` is the oracle giving the rendered
page source per URL for this cycle. -/
def runCycle (fetch : String → String) (urls : List String) (st : LoopState) : CycleOut :=
  runURLs fetch urls { state := st, any_in_stock := false, sent := [] }

/-- Sleep choice at MCSA.py line 189:
`in_stock_interval if any_in_stock else check_interval`. -/
def sleep_time (in_stock_interval check_interval : Int) (any_in_stock : Bool) : Int :=
  if any_in_stock then in_stock_interval else check_interval

/-- A run of consecutive poll cycles, one fetch oracle per cycle.
Returns the final state and the list of per-cycle notification sends. -/
def runCycles (urls : List String) : List (String → String) → LoopState →
    LoopState × List (List (String × String))
  | [], st => (st, [])
  | f :: fs, st =>
    let c := runCycle f urls st
    let rest := runCycles urls fs c.state
    (rest.1, c.sent :: rest.2)

/-! ## Daily report gating (MCSA.py lines 144-145 and 180-186) -/

/-- A local calendar date (`now.date()`). -/
structure Date where
  year : Nat
  month : Nat
  day : Nat
deriving DecidableEq

/-- The fields of the localized `datetime.now(tz)` the report check
reads: the calendar date and the hour. -/
structure LocalTime where
  date : Date
  hour : Int
deriving DecidableEq

/-- The daily-report check at MCSA.py lines 181-186: send when the local
hour has reached the configured hour and the last-reported date differs
from today; recording today as the last-reported date exactly when a
report is sent.  Returns (report sent?, new last-report date). -/
def dailyReportCheck (daily_report_hour : Int) (now : LocalTime)
    (last_report_date : Option Date) : Bool × Option Date :=
  if daily_report_hour ≤ now.hour ∧ last_report_date ≠ some now.date then
    (true, some now.date)
  else
    (false, last_report_date)

/-- The report check iterated over the cycle-loop passes, collecting for
each pass whether a report was sent. -/
def reportRun (daily_report_hour : Int) : List LocalTime → Option Date →
    List Bool × Option Date
  | [], last => ([], last)
  | t :: ts, last =>
    let r := dailyReportCheck daily_report_hour t last
    let rest := reportRun daily_report_hour ts r.2
    (r.1 :: rest.1, rest.2)

/-! ## Helper lemmas -/

theorem check_stock_is_in_stock (p u : String) (n : Finset String) :
    (check_stock p u n).is_in_stock = detect p := by
  unfold check_stock
  by_cases hd : detect p
  · by_cases hm : u ∈ n <;> simp [hd, hm]
  · simp [hd]

theorem check_stock_mem (p u : String) (n : Finset String) (v : String) :
    v ∈ (check_stock p u n).notified_urls ↔
      ((v = u ∧ detect p = true) ∨ (v ≠ u ∧ v ∈ n)) := by
  unfold check_stock
  by_cases hd : detect p
  · by_cases hm : u ∈ n
    · simp only [hd, if_true, hm, not_true_eq_false, if_false]
      by_cases hv : v = u
      · subst hv; simp [hm]
      · simp [hv]
    · simp only [hd, if_true, hm, not_false_eq_true, if_true, Finset.mem_insert]
      by_cases hv : v = u
      · subst hv; simp
      · simp [hv]
  · simp only [Bool.not_eq_true] at hd
    simp only [hd, Bool.false_eq_true, if_false, Finset.mem_erase]
    tauto

theorem check_stock_sent_not_detected (p u : String) (n : Finset String)
    (hd : detect p = false) : (check_stock p u n).sent = [] := by
  simp [check_stock, hd]

theorem check_stock_sent_already_notified (p u : String) (n : Finset String)
    (hm : u ∈ n) : (check_stock p u n).sent = [] := by
  unfold check_stock
  by_cases hd : detect p <;> simp [hd, hm]

theorem runURLs_mem (fetch : String → String) (us : List String) (acc : CycleOut)
    (v : String) :
    v ∈ (runURLs fetch us acc).state.notified ↔
      ((v ∈ us ∧ detect (fetch v) = true) ∨ (v ∉ us ∧ v ∈ acc.state.notified)) := by
  induction us generalizing acc with
  | nil => simp [runURLs]
  | cons u rest ih =>
    rw [runURLs, ih]
    have hstep : ∀ w, (w ∈ (cycleStep fetch u acc).state.notified ↔
        ((w = u ∧ detect (fetch u) = true) ∨ (w ≠ u ∧ w ∈ acc.state.notified))) :=
      fun w => check_stock_mem (fetch u) u acc.state.notified w
    rw [hstep v]
    by_cases hvu : v = u
    · subst hvu; simp [List.mem_cons]; try tauto
    · simp [List.mem_cons, hvu]; try tauto

theorem runURLs_status (fetch : String → String) (us : List String) (acc : CycleOut)
    (v : String) :
    (runURLs fetch us acc).state.stock_status v =
      if v ∈ us then some (detect (fetch v)) else acc.state.stock_status v := by
  induction us generalizing acc with
  | nil => simp [runURLs]
  | cons u rest ih =>
    rw [runURLs, ih]
    by_cases hvr : v ∈ rest
    · simp [hvr, List.mem_cons]
    · by_cases hvu : v = u
      · subst hvu
        simp [hvr, cycleStep, check_stock_is_in_stock]
      · simp [hvr, hvu, cycleStep, List.mem_cons]

theorem runURLs_any (fetch : String → String) (us : List String) (acc : CycleOut) :
    (runURLs fetch us acc).any_in_stock =
      (acc.any_in_stock || us.any fun u => detect (fetch u)) := by
  induction us generalizing acc with
  | nil => simp [runURLs]
  | cons u rest ih =>
    rw [runURLs, ih]
    simp [cycleStep, check_stock_is_in_stock, Bool.or_assoc]

theorem runCycles_not_mem (urls : List String) (fs : List (String → String))
    (st : LoopState) (u : String)
    (hdet : ∀ f ∈ fs, detect (f u) = false) (h0 : u ∉ st.notified) :
    u ∉ (runCycles urls fs st).1.notified := by
  induction fs generalizing st with
  | nil => simpa [runCycles] using h0
  | cons f fs ih =>
    rw [runCycles]
    apply ih
    · intro g hg; exact hdet g (List.mem_cons_of_mem f hg)
    · rw [runCycle, runURLs_mem]
      have hf : detect (f u) = false := hdet f (List.mem_cons_self f fs)
      simp [hf, h0]

theorem dailyReportCheck_hour (h : Int) (now : LocalTime) (last : Option Date)
    (hs : (dailyReportCheck h now last).1 = true) : h ≤ now.hour := by
  unfold dailyReportCheck at hs
  by_cases hc : h ≤ now.hour ∧ last ≠ some now.date
  · exact hc.1
  · simp [hc] at hs

theorem dailyReportCheck_sent_date (h : Int) (now : LocalTime) (last : Option Date)
    (hs : (dailyReportCheck h now last).1 = true) :
    (dailyReportCheck h now last).2 = some now.date := by
  unfold dailyReportCheck at hs ⊢
  by_cases hc : h ≤ now.hour ∧ last ≠ some now.date
  · simp [hc]
  · simp [hc] at hs

theorem dailyReportCheck_same_date (h : Int) (now : LocalTime) :
    dailyReportCheck h now (some now.date) = (false, some now.date) := by
  simp [dailyReportCheck]

theorem reportRun_same_date_after_sent (h : Int) (ts : List LocalTime) (d : Date)
    (hall : ∀ t ∈ ts, t.date = d) :
    (reportRun h ts (some d)).1.count true = 0 := by
  induction ts with
  | nil => simp [reportRun]
  | cons t ts ih =>
    have ht : t.date = d := hall t (List.mem_cons_self t ts)
    rw [reportRun]
    have hc : dailyReportCheck h t (some d) = (false, some d) := by
      rw [← ht]; exact dailyReportCheck_same_date h t
    rw [hc]
    simpa using ih fun s hs => hall s (List.mem_cons_of_mem t hs)

theorem reportRun_count_le_one (h : Int) (ts : List LocalTime) (d : Date)
    (last : Option Date) (hall : ∀ t ∈ ts, t.date = d) :
    (reportRun h ts last).1.count true ≤ 1 := by
  induction ts generalizing last with
  | nil => simp [reportRun]
  | cons t ts ih =>
    have ht : t.date = d := hall t (List.mem_cons_self t ts)
    have htail : ∀ s ∈ ts, s.date = d := fun s hs => hall s (List.mem_cons_of_mem t hs)
    rw [reportRun]
    by_cases hs : (dailyReportCheck h t last).1 = true
    · have hd2 : (dailyReportCheck h t last).2 = some d := by
        rw [← ht]; exact dailyReportCheck_sent_date h t last hs
      rw [hd2] at *
      simp [hs, List.count_cons, reportRun_same_date_after_sent h ts d htail]
    · have hs0 : (dailyReportCheck h t last).1 = false := by
        simpa using hs
      have h2 : (dailyReportCheck h t last).2 = last := by
        unfold dailyReportCheck at hs0 ⊢
        by_cases hc : h ≤ t.hour ∧ last ≠ some t.date
        · simp [hc] at hs0
        · simp [hc]
      rw [h2, hs0]
      simpa [List.count_cons] using ih last htail

/-- The invariant relating the notified set to the status map: a URL is
notified exactly when it is configured and its last recorded status is
in-stock. -/
def stateInv (urls : List String) (st : LoopState) : Prop :=
  ∀ v, (v ∈ st.notified ↔ (v ∈ urls ∧ st.stock_status v = some true))

theorem stateInv_init (urls : List String) : stateInv urls initState := by
  intro v; simp [initState]

theorem stateInv_cycle (f : String → String) (urls : List String) (st : LoopState)
    (h : stateInv urls st) : stateInv urls (runCycle f urls st).state := by
  intro v
  rw [runCycle, runURLs_mem, runURLs_status]
  by_cases hv : v ∈ urls
  · simp [hv]
  · simp only [hv, if_false, false_and, false_or, not_false_eq_true, true_and]
    rw [h v]
    simp [hv]

theorem stateInv_runCycles (urls : List String) (fs : List (String → String))
    (st : LoopState) (h : stateInv urls st) :
    stateInv urls (runCycles urls fs st).1 := by
  induction fs generalizing st with
  | nil => simpa [runCycles] using h
  | cons f fs ih =>
    rw [runCycles]
    exact ih (runCycle f urls st).state (stateInv_cycle f urls st h)

theorem filterMap_trim (l : List String) :
    (l.filterMap fun url =>
        let t := pyStrip url
        if t = "" then none else some t)
      = (l.map pyStrip).filter fun t => t != "" := by
  induction l with
  | nil => rfl
  | cons x xs ih =>
    simp only [List.filterMap_cons, List.map_cons, List.filter_cons]
    by_cases hx : pyStrip x = ""
    · simp [hx, ih]
    · simp [hx, ih]

/-! ## Claim theorems -/

/-- C4: the notifier is total and non-fatal: when the Gotify URL or the
token is absent, `send_gotify` attempts no network call; and for every
input and every network outcome (transport exception or any status code)
it propagates no exception to its caller. -/
theorem send_gotify_total_nonfatal (gotify_url gotify_token : Option String)
    (title message : String) (net : NetResult) :
    ((gotify_url = none ∨ gotify_token = none) →
      (send_gotify gotify_url gotify_token title message net).calls = [])
    ∧ (send_gotify gotify_url gotify_token title message net).raised = none := by
  constructor
  · intro h
    have hfals : (pyFalsy gotify_url || pyFalsy gotify_token) = true := by
      rcases h with h | h <;> subst h <;> simp [pyFalsy]
    unfold send_gotify send_gotify_try
    rw [hfals]
    simp
  · unfold send_gotify
    cases h : (send_gotify_try gotify_url gotify_token title message net).raised <;> simp [h]

/-- C4 witness: with both credentials absent and a 200 response available,
no network call is attempted. -/
theorem send_gotify_total_nonfatal_witness :
    (send_gotify none none "t" "m" (NetResult.ok 200)).calls = [] :=
  (send_gotify_total_nonfatal none none "t" "m" (NetResult.ok 200)).1 (Or.inl rfl)

/-- C5: the stock detector returns true exactly when the page markup
contains the literal 16-character in-stock fragment (the single-quoted
property inStock, a colon, the single-quoted value True) as a contiguous
substring; on every other string it returns false. -/
theorem detect_iff_marker_substring (html : String) :
    detect html = true ↔ ∃ l r, html.data = l ++ stockMarker.data ++ r :=
  occursIn_iff stockMarker.data html.data

/-- C5 witness: the detector accepts a page extending the marker and, by
the equivalence, the decomposition is exhibited concretely. -/
theorem detect_iff_marker_substring_witness :
    detect (String.mk (stockMarker.data ++ ['x'])) = true :=
  (detect_iff_marker_substring (String.mk (stockMarker.data ++ ['x']))).mpr
    ⟨[], ['x'], rfl⟩

/-- C7: the sleep duration chosen at the end of a poll cycle is the
in-stock interval when at least one configured URL was detected in stock
during the cycle, and the normal check interval otherwise. -/
theorem sleep_interval_choice (fetch : String → String) (urls : List String)
    (st : LoopState) (in_stock_interval check_interval : Int) :
    sleep_time in_stock_interval check_interval (runCycle fetch urls st).any_in_stock =
      if ∃ u ∈ urls, detect (fetch u) = true then in_stock_interval
      else check_interval := by
  unfold sleep_time runCycle
  rw [runURLs_any]
  simp only [Bool.false_or]
  by_cases hx : ∃ u ∈ urls, detect (fetch u) = true
  · have hany : (urls.any fun u => detect (fetch u)) = true :=
      List.any_eq_true.mpr hx
    simp [hany, hx]
  · have hany : (urls.any fun u => detect (fetch u)) = false := by
      rw [← Bool.not_eq_true, List.any_eq_true]
      exact hx
    simp [hany, hx]

/-- C9: `get_product_urls` splits on commas, trims each piece and drops
the empty pieces; and with the environment values absent the getters
return store ID 051, check interval 300, in-stock interval 3600, daily
report hour 9 (an integer within 0-23), and timezone America/New_York. -/
theorem config_parse_and_defaults :
    (∀ s : String, ¬ s = "" →
      get_product_urls (some s) =
        Except.ok (((pySplit s ',').map pyStrip).filter fun t => t != ""))
    ∧ get_store_id none = "051"
    ∧ get_check_interval none = Except.ok 300
    ∧ get_in_stock_interval none = Except.ok 3600
    ∧ (get_daily_report_hour none = Except.ok 9 ∧ 0 ≤ (9 : Int) ∧ (9 : Int) ≤ 23)
    ∧ get_timezone none = "America/New_York" := by
  refine ⟨?_, rfl, by rfl, by rfl, ⟨by rfl, by decide, by decide⟩, rfl⟩
  intro s hs
  unfold get_product_urls
  simp only [Option.getD_some, hs, if_false]
  rw [filterMap_trim]

/-- C9 witness: the parse at a concrete comma-separated value with
whitespace and an empty piece. -/
theorem config_parse_and_defaults_witness :
    get_product_urls (some " a ,, b ") =
      Except.ok (((pySplit " a ,, b " ',').map pyStrip).filter fun t => t != "") :=
  config_parse_and_defaults.1 " a ,, b " (by decide)

/-- C10: after every completed poll cycle (any trace of fetch oracles run
from the initial state), the notified set is exactly the set of
configured URLs whose most recently recorded stock status is true. -/
theorem notified_matches_status (urls : List String)
    (fetches : List (String → String)) (v : String) :
    v ∈ (runCycles urls fetches initState).1.notified ↔
      (v ∈ urls ∧ (runCycles urls fetches initState).1.stock_status v = some true) :=
  stateInv_runCycles urls fetches initState (stateInv_init urls) v

theorem except_bind_error {α β : Type} (e : Fatal) (f : α → Except Fatal β) :
    (Except.error e >>= f : Except Fatal β) = Except.error e := rfl

theorem except_bind_ok {α β : Type} (a : α) (f : α → Except Fatal β) :
    (Except.ok a >>= f : Except Fatal β) = f a := rfl

/-- C1: notifications are edge-triggered.  For a single monitored URL
whose page content is detected out-of-stock, in-stock, out-of-stock,
in-stock over four consecutive cycles, exactly one notification send is
attempted on each of the two entries into in-stock and none elsewhere;
moreover `check_stock` attempts no send on any out-of-stock observation
and none when the URL is already in the notified set (a repeated
in-stock observation). -/
theorem notifications_edge_triggered (u p1 p2 p3 p4 : String)
    (h1 : detect p1 = false) (h2 : detect p2 = true)
    (h3 : detect p3 = false) (h4 : detect p4 = true) :
    ((runCycles [u] [fun _ => p1, fun _ => p2, fun _ => p3, fun _ => p4]
        initState).2.map List.length = [0, 1, 0, 1])
    ∧ (∀ page n, detect page = false → (check_stock page u n).sent = [])
    ∧ (∀ page n, u ∈ n → (check_stock page u n).sent = []) := by
  refine ⟨?_, fun page n hd => check_stock_sent_not_detected page u n hd,
    fun page n hm => check_stock_sent_already_notified page u n hm⟩
  simp [runCycles, runCycle, runURLs, cycleStep, check_stock, initState,
    h1, h2, h3, h4, Finset.mem_erase, Finset.mem_insert]

/-- C1 witness: the four-cycle trace evaluated on concrete pages (empty
page, the marker itself). -/
theorem notifications_edge_triggered_witness :
    (runCycles ["https://www.microcenter.com/product/usb-c-hub-9-port"]
        [fun _ => "", fun _ => stockMarker, fun _ => "", fun _ => stockMarker]
        initState).2.map List.length = [0, 1, 0, 1] :=
  (notifications_edge_triggered "https://www.microcenter.com/product/usb-c-hub-9-port"
    "" stockMarker "" stockMarker (by decide) (by decide) (by decide) (by decide)).1

/-- C2: over any run of cycle-loop passes falling on one local calendar
date, at most one daily report is sent; a report is only sent on a pass
whose local hour has reached the configured hour; and once the report has
been sent for the current date, a further attempt on the same date does
nothing and leaves the last-report date unchanged. -/
theorem daily_report_once_per_date (h : Int) (ts : List LocalTime) (d : Date)
    (last : Option Date) (hall : ∀ t ∈ ts, t.date = d) :
    (reportRun h ts last).1.count true ≤ 1
    ∧ (∀ now last2, (dailyReportCheck h now last2).1 = true → h ≤ now.hour)
    ∧ (∀ now, dailyReportCheck h now (some now.date) = (false, some now.date)) :=
  ⟨reportRun_count_le_one h ts d last hall,
   fun now last2 hs => dailyReportCheck_hour h now last2 hs,
   fun now => dailyReportCheck_same_date h now⟩

/-- C2 witness: two passes at hours 10 and 11 of the same date, report
hour 9, no report sent yet. -/
theorem daily_report_once_per_date_witness :
    (reportRun 9 [⟨⟨2026, 10, 12⟩, 10⟩, ⟨⟨2026, 10, 12⟩, 11⟩] none).1.count true ≤ 1 :=
  (daily_report_once_per_date 9 [⟨⟨2026, 10, 12⟩, 10⟩, ⟨⟨2026, 10, 12⟩, 11⟩]
    ⟨2026, 10, 12⟩ none (by decide)).1

/-- C3 counterexample: two fatal startup conditions other than an empty
`PRODUCT_URLS`, both with `PRODUCT_URLS` set and non-empty (here against
a time-zone database resolving exactly the default zone name): with
`CHECK_INTERVAL` set to a non-numeric string the `int()` conversion at
MCSA.py line 30 raises an uncaught `ValueError`; and with all integer
settings well-formed but `TIMEZONE` set to a name the database does not
know, `ZoneInfo` at line 139 raises an uncaught `ZoneInfoNotFoundError`.
So the empty-URLs exit is not the only fatal startup condition in the
config resolver. -/
theorem config_fatal_on_malformed_interval :
    ((∃ c, resolveConfig (fun z => z == "America/New_York")
        { product_urls := some "https://www.microcenter.com/product/usb-c-hub-9-port",
          store_id := none, check_interval := some "five",
          in_stock_interval := none, daily_report_hour := none,
          timezone := none } = Except.error c)
      ∧ (∃ c, resolveConfig (fun z => z == "America/New_York")
        { product_urls := some "https://www.microcenter.com/product/usb-c-hub-9-port",
          store_id := none, check_interval := none,
          in_stock_interval := none, daily_report_hour := none,
          timezone := some "Mars/Olympus" } = Except.error c))
    ∧ ¬ (some "https://www.microcenter.com/product/usb-c-hub-9-port").getD "" = "" :=
  ⟨⟨⟨Fatal.uncaught "ValueError: invalid literal for int: five", by rfl⟩,
    ⟨Fatal.uncaught "ZoneInfoNotFoundError: No time zone found with key Mars/Olympus",
      by rfl⟩⟩,
   by decide⟩

/-- C3 amended: when the three optional integer settings hold well-formed
integers and the configured timezone name is known to the system
time-zone database, startup fails exactly when `PRODUCT_URLS` is unset
or empty, in which case the resolver stops with the error message and
exit status 1 (non-zero) before anything else runs; a malformed integer
setting or an unknown timezone name is a further fatal condition (an
uncaught exception), exhibited by the counterexample. -/
theorem product_urls_only_deliberate_fatal (tzdb : String → Bool) (e : Env)
    (hci : ¬ pyInt (e.check_interval.getD "300") = none)
    (hisi : ¬ pyInt (e.in_stock_interval.getD "3600") = none)
    (hh : ¬ pyInt (e.daily_report_hour.getD "9") = none)
    (htz : tzdb (get_timezone e.timezone) = true) :
    ((∃ c, resolveConfig tzdb e = Except.error c) ↔ e.product_urls.getD "" = "")
    ∧ (e.product_urls.getD "" = "" →
        resolveConfig tzdb e =
          Except.error (Fatal.exitError 1 "ERROR: No PRODUCT_URLS configured in environment"))
    ∧ (∀ code msg, resolveConfig tzdb e = Except.error (Fatal.exitError code msg) →
        ¬ code = 0) := by
  obtain ⟨n1, hn1⟩ := Option.ne_none_iff_exists'.mp hci
  obtain ⟨n2, hn2⟩ := Option.ne_none_iff_exists'.mp hisi
  obtain ⟨n3, hn3⟩ := Option.ne_none_iff_exists'.mp hh
  by_cases hu : e.product_urls.getD "" = ""
  · refine ⟨?_, ?_, ?_⟩
    · simp only [hu, iff_true]
      exact ⟨Fatal.exitError 1 "ERROR: No PRODUCT_URLS configured in environment",
        by simp [resolveConfig, get_product_urls, hu, except_bind_error]⟩
    · intro _
      simp [resolveConfig, get_product_urls, hu, except_bind_error]
    · intro code msg hcm
      simp only [resolveConfig, get_product_urls, hu, if_true, reduceIte,
        except_bind_error, Except.error.injEq, Fatal.exitError.injEq] at hcm
      omega
  · have hres : resolveConfig tzdb e = Except.ok
        { product_urls := (pySplit (e.product_urls.getD "") ',').filterMap fun url =>
            let t := pyStrip url
            if t = "" then none else some t,
          store_id := get_store_id e.store_id,
          check_interval := n1, in_stock_interval := n2, daily_report_hour := n3,
          timezone := get_timezone e.timezone } := by
      simp [resolveConfig, get_product_urls, hu, get_check_interval, hn1,
        get_in_stock_interval, hn2, get_daily_report_hour, hn3, zoneInfo, htz,
        except_bind_ok, except_bind_error]
    refine ⟨?_, fun hcontra => absurd hcontra hu, ?_⟩
    · simp [hres, hu]
    · intro code msg hcm
      rw [hres] at hcm
      exact absurd hcm (by simp)

/-- C3 amended witness: against a database resolving the default zone
name, a well-formed environment with `PRODUCT_URLS` unset resolves to
the deliberate exit with status 1. -/
theorem product_urls_only_deliberate_fatal_witness :
    resolveConfig (fun z => z == "America/New_York")
      { product_urls := none, store_id := none, check_interval := none,
        in_stock_interval := none, daily_report_hour := none,
        timezone := none } =
      Except.error (Fatal.exitError 1 "ERROR: No PRODUCT_URLS configured in environment") :=
  (product_urls_only_deliberate_fatal (fun z => z == "America/New_York")
    { product_urls := none, store_id := none, check_interval := none,
      in_stock_interval := none, daily_report_hour := none, timezone := none }
    (by decide) (by decide) (by decide) (by decide)).2.1 (by decide)

/-- C6: for a URL whose fetched content never contains the in-stock
marker, the detector returns false on every cycle, and the URL is not in
the notified set after any prefix of complete cycles nor at any
intermediate point of the per-URL loop of the following cycle (for any
split of the configured URL list, any fetch oracle of the trace, and any
values of the accumulated flag and sends). -/
theorem never_marker_never_notified (urls : List String)
    (fetches : List (String → String)) (u : String)
    (hnever : ∀ f ∈ fetches, ¬ ∃ l r, (f u).data = l ++ stockMarker.data ++ r) :
    (∀ f ∈ fetches, detect (f u) = false)
    ∧ (∀ fs1 fs2, fetches = fs1 ++ fs2 →
        u ∉ (runCycles urls fs1 initState).1.notified)
    ∧ (∀ fs1 fs2, fetches = fs1 ++ fs2 → ∀ f ∈ fetches,
        ∀ us1 us2, urls = us1 ++ us2 → ∀ b s,
        u ∉ (runURLs f us1
            { state := (runCycles urls fs1 initState).1, any_in_stock := b,
              sent := s }).state.notified) := by
  have hdet : ∀ f ∈ fetches, detect (f u) = false := by
    intro f hf
    rw [← Bool.not_eq_true, detect, occursIn_iff]
    exact hnever f hf
  have hcycles : ∀ fs1 fs2, fetches = fs1 ++ fs2 →
      u ∉ (runCycles urls fs1 initState).1.notified := by
    intro fs1 fs2 hsplit
    apply runCycles_not_mem
    · intro f hf
      exact hdet f (by rw [hsplit]; exact List.mem_append_left fs2 hf)
    · simp [initState]
  refine ⟨hdet, hcycles, ?_⟩
  intro fs1 fs2 hsplit f hf us1 us2 husplit b s
  rw [runURLs_mem]
  have hfu : detect (f u) = false := hdet f hf
  simp [hfu, hcycles fs1 fs2 hsplit]

/-- C6 witness: after one cycle fetching an empty page for the single
configured URL, that URL is not in the notified set. -/
theorem never_marker_never_notified_witness :
    "https://a/b-c" ∉ (runCycles ["https://a/b-c"] [fun _ : String => ""]
      initState).1.notified :=
  (never_marker_never_notified ["https://a/b-c"] [fun _ => ""] "https://a/b-c"
    (by
      intro f hf
      rw [List.mem_singleton] at hf
      subst hf
      rintro ⟨l, r, hlr⟩
      have hlen := congrArg List.length hlr
      simp [stockMarker] at hlen
      omega)).2.1 [fun _ => ""] [] (List.append_nil _).symm

/-- C8: the display name of a product URL is the last slash-separated
segment with hyphens replaced by spaces and the result title-cased; the
derivation used in stock-alert messages (`check_stock`) and the one used
in daily-report lines (`send_daily_report`) agree on every URL; the
spec example maps to the expected name; a fresh in-stock detection sends
an alert whose message uses the derived name; and each daily-report line
uses the derived name. -/
theorem display_name_derivation :
    (∀ url, product_name_alert url = product_name_report url)
    ∧ product_name_alert "https://www.microcenter.com/product/usb-c-hub-9-port"
        = "Usb C Hub 9 Port"
    ∧ (∀ page u n, detect page = true → u ∉ n →
        (check_stock page u n).sent =
          [("Microcenter Stock Alert!",
            product_name_alert u ++ " is now IN STOCK!\n\n" ++ u)])
    ∧ (∀ url b, daily_report_lines [(url, b)] =
        ["- " ++ product_name_report url ++ ": " ++
          (if b then "IN STOCK" else "Out of Stock")]) := by
  refine ⟨fun _ => rfl, by decide, ?_, fun url b => rfl⟩
  intro page u n hd hn
  simp [check_stock, hd, hn]

/-- C8 witness: a fresh in-stock detection on the marker page for the
spec example URL produces the alert message with the derived name. -/
theorem display_name_derivation_witness :
    (check_stock stockMarker "https://www.microcenter.com/product/usb-c-hub-9-port"
        ∅).sent =
      [("Microcenter Stock Alert!",
        product_name_alert "https://www.microcenter.com/product/usb-c-hub-9-port"
          ++ " is now IN STOCK!\n\n"
          ++ "https://www.microcenter.com/product/usb-c-hub-9-port")] :=
  display_name_derivation.2.2.1 stockMarker
    "https://www.microcenter.com/product/usb-c-hub-9-port" ∅ (by decide)
    (Finset.not_mem_empty _)

end StockSmart
